import Mathlib

/-!
Shallow embedding of the Khan Space Industries ground-control telemetry
pipeline (src/groundcontrol/src/main.rs, with the ring-buffer variant in
src/flow/src/main.rs), together with theorems settling the specification
claims about the line decoder, telemetry ring buffer, acquisition loop,
persistent logger, command relay and command broadcaster.

Modelling conventions:
* Rust `f64` values are modelled exactly: a parsed float is either a finite
  rational (no rounding to binary64), an infinity, or a NaN marker.  Only
  parse success/failure and pass-through of the parsed value matter to the
  claims proved here.
* Rust `i32` is modelled as `Int` with the `i32` range check performed by
  the string parser, exactly as `str::parse::<i32>` does.
* Strings are handled as `List Char`; splitting on a comma and trimming
  ASCII whitespace are defined structurally below, mirroring Rust's
  `str::split(',')` and `str::trim` on the whitespace actually produced by
  the serial device.
-/

/-- Capacity bound of the telemetry history, `MAX_DATA_POINTS` in
src/groundcontrol/src/main.rs line 16. -/
def MAX_DATA_POINTS : Nat := 1000

/-- Value of `i32::MAX`, the overflow bound used by Rust's `str::parse::<i32>`. -/
def I32_MAX : Nat := 2147483647

/-- Numeric value of a decimal digit list (most significant first);
helper for the Rust numeric parsers. -/
def natOfDigits (l : List Char) : Nat :=
  l.foldl (fun n c => 10 * n + (c.toNat - 48)) 0

/-- A nonempty all-digit list parsed to its value, `none` otherwise. -/
def digitsVal (l : List Char) : Option Nat :=
  if l.isEmpty || !(l.all Char.isDigit) then none
  else some (natOfDigits l)

/-- An optionally signed nonempty digit string parsed to an integer
(the shape `Sign? Digit+` accepted by Rust for integer literals and for
float exponents). -/
def parseSignedDigits (l : List Char) : Option Int :=
  match l with
  | '+' :: rest => (digitsVal rest).map (fun n => (n : Int))
  | '-' :: rest => (digitsVal rest).map (fun n => -(n : Int))
  | _ => (digitsVal l).map (fun n => (n : Int))

/-- Rust `str::parse::<i32>`: optional sign, one or more digits, value
within the `i32` range; anything else fails. -/
def parseI32 (l : List Char) : Option Int :=
  match l with
  | '+' :: rest => (digitsVal rest).bind (fun n => if n ≤ I32_MAX then some (n : Int) else none)
  | '-' :: rest => (digitsVal rest).bind (fun n => if n ≤ I32_MAX + 1 then some (-(n : Int)) else none)
  | _ => (digitsVal l).bind (fun n => if n ≤ I32_MAX then some (n : Int) else none)

/-- Split a character list at the first occurrence of `c`; `none` when `c`
does not occur. -/
def splitFirst (c : Char) : List Char → Option (List Char × List Char)
  | [] => none
  | x :: xs =>
      if x = c then some ([], xs)
      else (splitFirst c xs).map (fun p => (x :: p.1, p.2))

/-- Split at the first exponent marker (`e` or `E`). -/
def splitFirstExp : List Char → Option (List Char × List Char)
  | [] => none
  | x :: xs =>
      if x = 'e' ∨ x = 'E' then some ([], xs)
      else (splitFirstExp xs).map (fun p => (x :: p.1, p.2))

/-- The mantissa grammar accepted by Rust's `str::parse::<f64>`:
`Digit+ | Digit+ '.' Digit* | Digit* '.' Digit+`.  A successful parse
yields the digit string's value together with the number of fraction
digits, so the denoted value is `digits / 10 ^ fracLen`. -/
def parseMantissa (l : List Char) : Option (Nat × Nat) :=
  match splitFirst '.' l with
  | none => (digitsVal l).map (fun n => (n, 0))
  | some (a, b) =>
      if a.isEmpty && b.isEmpty then none
      else if a.all Char.isDigit && b.all Char.isDigit then
        some (natOfDigits (a ++ b), b.length)
      else none

/-- Exact rational value of a decimal literal
`(-1)^neg * digits * 10 ^ (ex - fracLen)`, built with integer arithmetic
and a single `mkRat` (Rust parses to the nearest `f64`; the model keeps
the exact denoted value). -/
def decimalValue (neg : Bool) (digits : Nat) (fracLen : Nat) (ex : Int) : ℚ :=
  let sign : Int := if neg then -1 else 1
  let e : Int := ex - (fracLen : Int)
  if 0 ≤ e then mkRat (sign * (digits : Int) * (10 : Int) ^ e.toNat) 1
  else mkRat (sign * (digits : Int)) ((10 : Nat) ^ (-e).toNat)

/-- Value of a successfully parsed `f64` field: a finite value kept as an
exact rational, a signed infinity, or NaN. -/
inductive FloatVal
  | finite (q : ℚ)
  | inf (neg : Bool)
  | nan
deriving DecidableEq, Repr

/-- Body of the Rust `f64` parser after the optional leading sign has been
stripped: case-insensitive `inf`/`infinity`/`nan`, or a mantissa with an
optional `e`/`E` exponent. -/
def parseF64Core (neg : Bool) (l : List Char) : Option FloatVal :=
  let low := l.map Char.toLower
  if low = "inf".data ∨ low = "infinity".data then some (.inf neg)
  else if low = "nan".data then some .nan
  else
    match splitFirstExp l with
    | none => (parseMantissa l).map (fun p => .finite (decimalValue neg p.1 p.2 0))
    | some (m, e) =>
        match parseMantissa m, parseSignedDigits e with
        | some p, some ex => some (.finite (decimalValue neg p.1 p.2 ex))
        | _, _ => none

/-- Rust `str::parse::<f64>`:
`Sign? ( 'inf' | 'infinity' | 'nan' | Number )` with
`Number ::= ( Digit+ | Digit+ '.' Digit* | Digit* '.' Digit+ ) Exp?` and
`Exp ::= ('e'|'E') Sign? Digit+`.  The finite value is kept exact. -/
def parseF64 (l : List Char) : Option FloatVal :=
  match l with
  | '+' :: rest => parseF64Core false rest
  | '-' :: rest => parseF64Core true rest
  | _ => parseF64Core false l

/-- Struct `EngineDataPoint` from src/groundcontrol/src/main.rs lines 18-31.
Note that the struct has no emergency field: the decoder validates the
eighth wire field but does not store it. -/
structure EngineDataPoint where
  timestamp : Nat
  time : FloatVal
  flow_rate_fuel : FloatVal
  flow_rate_oxi : FloatVal
  pulse_count_fuel : Int
  pulse_count_oxi : Int
  desired_pos_fuel : Int
  desired_pos_oxi : Int
  fuel_valve_open : Bool
  oxi_valve_open : Bool
  raw_values : List Char
deriving DecidableEq, Repr

/-- Function `parse_engine_data_point` from src/groundcontrol/src/main.rs lines
421-467: exactly 8 fields, the first three parsed as `f64`, the next four
as `i32`, the eighth validated to be the integer 0 or 1 (its value is
bound to `_emergency` in the source and discarded).  Error strings are the
literal prefixes of the Rust error messages. -/
def parse_engine_data_point (values : List (List Char)) : Except String EngineDataPoint :=
  if values.length ≠ 8 then .error "Invalid number of values"
  else
    match parseF64 (values.getD 0 []) with
    | none => .error "Time parse error"
    | some time =>
      match parseF64 (values.getD 1 []) with
      | none => .error "Flow fuel parse error"
      | some flow_fuel =>
        match parseF64 (values.getD 2 []) with
        | none => .error "Flow oxi parse error"
        | some flow_oxi =>
          match parseI32 (values.getD 3 []) with
          | none => .error "Pulse fuel parse error"
          | some pulse_fuel =>
            match parseI32 (values.getD 4 []) with
            | none => .error "Pulse oxi parse error"
            | some pulse_oxi =>
              match parseI32 (values.getD 5 []) with
              | none => .error "Pos fuel parse error"
              | some pos_fuel =>
                match parseI32 (values.getD 6 []) with
                | none => .error "Pos oxi parse error"
                | some pos_oxi =>
                  match parseI32 (values.getD 7 []) with
                  | none => .error "Emergency parse error"
                  | some k =>
                    if k = 1 ∨ k = 0 then
                      .ok { timestamp := 0
                            time := time
                            flow_rate_fuel := flow_fuel
                            flow_rate_oxi := flow_oxi
                            pulse_count_fuel := pulse_fuel
                            pulse_count_oxi := pulse_oxi
                            desired_pos_fuel := pos_fuel
                            desired_pos_oxi := pos_oxi
                            fuel_valve_open := false
                            oxi_valve_open := false
                            raw_values := [] }
                    else .error "Emergency value must be 0 or 1"

/-- ASCII whitespace test used by line trimming (space, tab, carriage
return, line feed). -/
def isWS (c : Char) : Bool :=
  c = ' ' || c = '\t' || c = '\n' || c = '\r'

/-- Rust `str::trim` on the character list of a line. -/
def trimChars (l : List Char) : List Char :=
  ((l.dropWhile isWS).reverse.dropWhile isWS).reverse

/-- Rust `str::split(',')`: every comma separates, empty pieces kept. -/
def splitComma : List Char → List (List Char)
  | [] => [[]]
  | c :: rest =>
      let r := splitComma rest
      if c = ',' then [] :: r
      else
        match r with
        | [] => [[c]]
        | p :: ps => (c :: p) :: ps

/-- The acquisition thread's decode of one raw line
(src/groundcontrol/src/main.rs lines 312-315): trim, split on commas,
parse. -/
def decode_line (line : List Char) : Except String EngineDataPoint :=
  parse_engine_data_point (splitComma (trimChars line))

deriving instance DecidableEq for Except

/-- One push into the bounded telemetry history, from
`FlowRateApp::update` (src/groundcontrol/src/main.rs lines 76-79):
`push_back`, then `pop_front` once when the length exceeds
`MAX_DATA_POINTS`.  The element type is generic; the ground-control
variant stores `EngineDataPoint`, the flow variant stores raw readings. -/
def push_data_point {α : Type} (buf : List α) (x : α) : List α :=
  let buf := buf ++ [x]
  if buf.length > MAX_DATA_POINTS then buf.tail else buf

/-- The flow-variant push (src/flow/src/main.rs lines 62-69): `push`,
then `drain(0..1)` when the length exceeds the bound. -/
def flow_push {α : Type} (buf : List α) (x : α) : List α :=
  let buf := buf ++ [x]
  if buf.length > MAX_DATA_POINTS then buf.drop 1 else buf

theorem flow_push_eq_push_data_point {α : Type} (buf : List α) (x : α) :
    flow_push buf x = push_data_point buf x := by
  simp [flow_push, push_data_point, List.drop_one]

/-- Central ring-buffer lemma: starting from an empty history, the result
of pushing the elements of `l` in order is exactly the suffix of `l` of
length at most `MAX_DATA_POINTS` (the most recent elements, oldest
evicted first). -/
theorem push_data_point_foldl {α : Type} (l : List α) :
    List.foldl push_data_point [] l = l.drop (l.length - MAX_DATA_POINTS) := by
  induction l using List.reverseRecOn with
  | nil => simp
  | append_singleton xs x ih =>
      rw [List.foldl_append]
      simp only [List.foldl_cons, List.foldl_nil, ih]
      by_cases h : xs.length < MAX_DATA_POINTS
      · have h0 : xs.length - MAX_DATA_POINTS = 0 := by omega
        have h1 : xs.length + 1 - MAX_DATA_POINTS = 0 := by omega
        simp [push_data_point, h0, h1]
        omega
      · have hpos : 0 < MAX_DATA_POINTS := by decide
        have hM : MAX_DATA_POINTS ≤ xs.length := by omega
        have hlen : (xs.drop (xs.length - MAX_DATA_POINTS)).length = MAX_DATA_POINTS := by
          rw [List.length_drop]; omega
        have hcond : ((xs.drop (xs.length - MAX_DATA_POINTS)) ++ [x]).length
            > MAX_DATA_POINTS := by
          simp [hlen]
        have hne : xs.drop (xs.length - MAX_DATA_POINTS) ≠ [] := by
          intro hnil
          rw [hnil] at hlen
          simp at hlen
          omega
        have hidx : (xs ++ [x]).length - MAX_DATA_POINTS
            = (xs.length - MAX_DATA_POINTS) + 1 := by
          simp
          omega
        rw [push_data_point, if_pos hcond]
        rw [List.tail_append_singleton_of_ne_nil hne, List.tail_drop, hidx]
        rw [List.drop_append_of_le_length (by omega)]

/-- C2: for every sequence of pushes into the telemetry ring buffer, the
length never exceeds the capacity `MAX_DATA_POINTS` (1000), and after
pushing more than `MAX_DATA_POINTS` samples exactly the most recent
`MAX_DATA_POINTS` samples remain, in their original push order (the
suffix of the pushed sequence, oldest evicted first). -/
theorem ring_buffer_capacity_and_fifo {α : Type} (l : List α) :
    (List.foldl push_data_point [] l).length ≤ MAX_DATA_POINTS ∧
    (l.length > MAX_DATA_POINTS →
      List.foldl push_data_point [] l = l.drop (l.length - MAX_DATA_POINTS)) := by
  constructor
  · rw [push_data_point_foldl, List.length_drop]
    omega
  · intro _
    exact push_data_point_foldl l

/-- Witness for `ring_buffer_capacity_and_fifo` at a concrete overfull
input: 1001 pushes leave the most recent 1000 elements. -/
theorem ring_buffer_capacity_and_fifo_witness :
    (List.replicate 1001 (0 : Nat)).length > MAX_DATA_POINTS ∧
    List.foldl push_data_point [] (List.replicate 1001 (0 : Nat)) =
      (List.replicate 1001 (0 : Nat)).drop
        ((List.replicate 1001 (0 : Nat)).length - MAX_DATA_POINTS) := by
  have h : (List.replicate 1001 (0 : Nat)).length > MAX_DATA_POINTS := by
    rw [List.length_replicate]
    decide
  exact ⟨h, (ring_buffer_capacity_and_fifo (List.replicate 1001 (0 : Nat))).2 h⟩

/-- Environment of one acquisition-loop iteration that read a complete
line (src/groundcontrol/src/main.rs lines 309-359): the raw line, the
wall-clock second returned by `SystemTime::now()`, the shared valve
states at the moment the lock is taken, and whether the
`log_file.write_all` call for this sample would succeed. -/
structure LineInput where
  line : List Char
  now : Nat
  fuelValve : Bool
  oxiValve : Bool
  writeOk : Bool
deriving DecidableEq, Repr

/-- A diagnostic printed with `eprintln!` by the acquisition loop: either
a parse error for a well-counted line (line 353) or the wrong-field-count
report (line 357). -/
inductive Diag
  | parseError (msg : String)
  | badFieldCount (n : Nat)
deriving DecidableEq, Repr

/-- One field of a persisted log record.  The source renders the fields
with `format!` into one comma-separated line (lines 337-349); fields are
modelled as typed values in their exact order, since the textual
rendering of an `f64` is IEEE-754-specific. -/
inductive LogField
  | nat (n : Nat)
  | int (i : Int)
  | float (v : FloatVal)
  | bool (b : Bool)
deriving DecidableEq, Repr

/-- The log record built for one sample, fields in the order of the
`format!` call at src/groundcontrol/src/main.rs lines 337-349: ingestion
timestamp, elapsed time, both flow rates, both pulse counts, both desired
positions, both valve-open flags. -/
def log_line (timestamp : Nat) (dp : EngineDataPoint) : List LogField :=
  [.nat timestamp, .float dp.time, .float dp.flow_rate_fuel, .float dp.flow_rate_oxi,
   .int dp.pulse_count_fuel, .int dp.pulse_count_oxi, .int dp.desired_pos_fuel,
   .int dp.desired_pos_oxi, .bool dp.fuel_valve_open, .bool dp.oxi_valve_open]

/-- The acquisition loop's completion of a freshly parsed sample (lines
317-330): stamp the wall-clock ingestion time, record the current valve
states from the shared cell, and store the trimmed raw line. -/
def stamp_data_point (inp : LineInput) (dp : EngineDataPoint) : EngineDataPoint :=
  { dp with
    timestamp := inp.now
    fuel_valve_open := inp.fuelValve
    oxi_valve_open := inp.oxiValve
    raw_values := trimChars inp.line }

/-- Observable state of the acquisition pipeline: the bounded history as
drained by the consumer (`FlowRateApp::update`), the records successfully
written to the log file, the samples sent on the consumer channel, and
the diagnostics printed so far. -/
structure AcqState where
  buffer : List EngineDataPoint
  log : List (List LogField)
  sent : List EngineDataPoint
  diags : List Diag
deriving DecidableEq, Repr

/-- Pipeline state at startup: everything empty. -/
def initState : AcqState :=
  { buffer := [], log := [], sent := [], diags := [] }

/-- One `Processing` iteration of the acquisition loop on a complete line
(src/groundcontrol/src/main.rs lines 311-358): trim and split the line;
with exactly 8 fields, parse, stamp, send to the consumer (whose
`FlowRateApp::update` pushes it into the bounded history), and append
the record to the log when the write succeeds (the write result is
discarded by the source); otherwise print a diagnostic and change
nothing else. -/
def acqStep (st : AcqState) (inp : LineInput) : AcqState :=
  let values := splitComma (trimChars inp.line)
  if values.length = 8 then
    match parse_engine_data_point values with
    | .ok dp0 =>
        let dp := stamp_data_point inp dp0
        { st with
          sent := st.sent ++ [dp]
          buffer := push_data_point st.buffer dp
          log := if inp.writeOk then st.log ++ [log_line inp.now dp] else st.log }
    | .error e => { st with diags := st.diags ++ [Diag.parseError e] }
  else
    { st with diags := st.diags ++ [Diag.badFieldCount values.length] }

/-- The log record an iteration contributes: one record exactly when the
line decodes and the file write succeeds. -/
def acq_log_entry (inp : LineInput) : Option (List LogField) :=
  if inp.writeOk then
    match parse_engine_data_point (splitComma (trimChars inp.line)) with
    | .ok dp0 => some (log_line inp.now (stamp_data_point inp dp0))
    | .error _ => none
  else none

/-- The data-bearing outputs of the pipeline (history, log, consumer
channel), excluding diagnostics. -/
def pipeline_outputs (st : AcqState) :
    List EngineDataPoint × List (List LogField) × List EngineDataPoint :=
  (st.buffer, st.log, st.sent)

theorem parse_length_ne_eight {values : List (List Char)} (h : values.length ≠ 8) :
    parse_engine_data_point values = .error "Invalid number of values" := by
  simp [parse_engine_data_point, h]

theorem acqStep_log (st : AcqState) (inp : LineInput) :
    (acqStep st inp).log = st.log ++ (acq_log_entry inp).toList := by
  unfold acqStep acq_log_entry
  by_cases hlen : (splitComma (trimChars inp.line)).length = 8
  · cases hp : parse_engine_data_point (splitComma (trimChars inp.line)) with
    | ok dp0 =>
        by_cases hw : inp.writeOk <;> simp [hlen, hp, hw]
    | error e => simp [hlen, hp]
  · have hperr := parse_length_ne_eight hlen
    simp [hlen, hperr]

theorem acq_log_foldl (st : AcqState) (inputs : List LineInput) :
    (List.foldl acqStep st inputs).log = st.log ++ inputs.filterMap acq_log_entry := by
  induction inputs generalizing st with
  | nil => simp
  | cons inp rest ih =>
      rw [List.foldl_cons, ih, acqStep_log, List.filterMap_cons]
      cases acq_log_entry inp <;> simp

/-- C5: each successfully decoded sample produces exactly one appended
log record, records appear in decode order, and each record's fields are
in the fixed order: ingestion timestamp, elapsed time, both flow rates,
both pulse counts, both desired positions, both valve-open flags.
(Stated for runs in which the file writes succeed; silently failing
writes are the subject of the write-failure claim.) -/
theorem log_record_per_sample (inputs : List LineInput)
    (hw : ∀ inp ∈ inputs, inp.writeOk = true) :
    (List.foldl acqStep initState inputs).log =
      inputs.filterMap (fun inp =>
        match parse_engine_data_point (splitComma (trimChars inp.line)) with
        | .ok dp0 =>
            some [LogField.nat inp.now, LogField.float dp0.time,
                  LogField.float dp0.flow_rate_fuel, LogField.float dp0.flow_rate_oxi,
                  LogField.int dp0.pulse_count_fuel, LogField.int dp0.pulse_count_oxi,
                  LogField.int dp0.desired_pos_fuel, LogField.int dp0.desired_pos_oxi,
                  LogField.bool inp.fuelValve, LogField.bool inp.oxiValve]
        | .error _ => none) := by
  rw [acq_log_foldl]
  simp only [initState, List.nil_append]
  apply List.filterMap_congr
  intro inp hmem
  unfold acq_log_entry
  rw [hw inp hmem]
  cases parse_engine_data_point (splitComma (trimChars inp.line)) <;> rfl

/-- Witness for `log_record_per_sample` on two concrete valid lines with
successful writes. -/
theorem log_record_per_sample_witness :
    (∀ inp ∈ [(⟨"1.0,2.5,3.1,10,12,5,5,0".data, 100, false, false, true⟩ : LineInput),
              ⟨"2.0,2.6,3.0,11,12,5,5,1".data, 101, true, false, true⟩],
        inp.writeOk = true) ∧
    (List.foldl acqStep initState
        [(⟨"1.0,2.5,3.1,10,12,5,5,0".data, 100, false, false, true⟩ : LineInput),
         ⟨"2.0,2.6,3.0,11,12,5,5,1".data, 101, true, false, true⟩]).log =
      [(⟨"1.0,2.5,3.1,10,12,5,5,0".data, 100, false, false, true⟩ : LineInput),
       ⟨"2.0,2.6,3.0,11,12,5,5,1".data, 101, true, false, true⟩].filterMap (fun inp =>
        match parse_engine_data_point (splitComma (trimChars inp.line)) with
        | .ok dp0 =>
            some [LogField.nat inp.now, LogField.float dp0.time,
                  LogField.float dp0.flow_rate_fuel, LogField.float dp0.flow_rate_oxi,
                  LogField.int dp0.pulse_count_fuel, LogField.int dp0.pulse_count_oxi,
                  LogField.int dp0.desired_pos_fuel, LogField.int dp0.desired_pos_oxi,
                  LogField.bool inp.fuelValve, LogField.bool inp.oxiValve]
        | .error _ => none) :=
  ⟨by decide, log_record_per_sample _ (by decide)⟩

theorem acqStep_fail (st : AcqState) (inp : LineInput)
    (h : (parse_engine_data_point (splitComma (trimChars inp.line))).toOption = none) :
    ∃ d, acqStep st inp = { st with diags := st.diags ++ [d] } := by
  by_cases hlen : (splitComma (trimChars inp.line)).length = 8
  · cases hp : parse_engine_data_point (splitComma (trimChars inp.line)) with
    | ok dp0 => rw [hp] at h; simp [Except.toOption] at h
    | error e =>
        exact ⟨Diag.parseError e, by simp [acqStep, hlen, hp]⟩
  · exact ⟨Diag.badFieldCount (splitComma (trimChars inp.line)).length,
      by simp [acqStep, hlen]⟩

theorem pipeline_outputs_congr (st1 st2 : AcqState)
    (h : pipeline_outputs st1 = pipeline_outputs st2) (inp : LineInput) :
    pipeline_outputs (acqStep st1 inp) = pipeline_outputs (acqStep st2 inp) := by
  simp only [pipeline_outputs, Prod.mk.injEq] at h
  obtain ⟨hb, hl, hs⟩ := h
  by_cases hlen : (splitComma (trimChars inp.line)).length = 8
  · cases hp : parse_engine_data_point (splitComma (trimChars inp.line)) <;>
      simp [acqStep, pipeline_outputs, hlen, hp, hb, hl, hs]
  · simp [acqStep, pipeline_outputs, hlen, hb, hl, hs]

theorem pipeline_outputs_foldl_congr (st1 st2 : AcqState)
    (h : pipeline_outputs st1 = pipeline_outputs st2) (inputs : List LineInput) :
    pipeline_outputs (List.foldl acqStep st1 inputs) =
      pipeline_outputs (List.foldl acqStep st2 inputs) := by
  induction inputs generalizing st1 st2 with
  | nil => exact h
  | cons inp rest ih => exact ih _ _ (pipeline_outputs_congr _ _ h inp)

/-- C6: a line that fails to decode only produces a diagnostic — the
history, the log and the consumer channel are exactly what they would be
had the line never arrived, and all other lines, before and after, are
processed unchanged. -/
theorem bad_line_isolated (xs ys : List LineInput) (bad : LineInput)
    (h : (parse_engine_data_point (splitComma (trimChars bad.line))).toOption = none) :
    pipeline_outputs (List.foldl acqStep initState (xs ++ bad :: ys)) =
      pipeline_outputs (List.foldl acqStep initState (xs ++ ys)) ∧
    ∃ d, (acqStep (List.foldl acqStep initState xs) bad).diags =
      (List.foldl acqStep initState xs).diags ++ [d] := by
  obtain ⟨d, hd⟩ := acqStep_fail (List.foldl acqStep initState xs) bad h
  constructor
  · rw [List.foldl_append, List.foldl_append, List.foldl_cons]
    apply pipeline_outputs_foldl_congr
    rw [hd]
    rfl
  · exact ⟨d, by rw [hd]⟩

/-- Witness for `bad_line_isolated`: the malformed line `bad,line`
between valid traffic leaves history, log and channel untouched and
produces one diagnostic. -/
theorem bad_line_isolated_witness :
    (parse_engine_data_point (splitComma
        (trimChars "bad,line".data))).toOption = none ∧
    (pipeline_outputs (List.foldl acqStep initState
        ([] ++ (⟨"bad,line".data, 11, false, false, true⟩ : LineInput) ::
          [⟨"3.0,2.7,3.2,12,13,5,5,0".data, 12, true, false, true⟩])) =
      pipeline_outputs (List.foldl acqStep initState
        ([] ++ [(⟨"3.0,2.7,3.2,12,13,5,5,0".data, 12, true, false, true⟩ : LineInput)])) ∧
     ∃ d, (acqStep (List.foldl acqStep initState [])
            ⟨"bad,line".data, 11, false, false, true⟩).diags =
          (List.foldl acqStep initState []).diags ++ [d]) :=
  ⟨by decide, bad_line_isolated [] _ _ (by decide)⟩

/-- C9 counterexample: a successfully decoded sample whose log write
fails produces no diagnostic at all — the write result is discarded with
`let _ =` at src/groundcontrol/src/main.rs line 350, so the claimed
report never happens. -/
theorem log_write_failure_unreported :
    (parse_engine_data_point (splitComma
        (trimChars "1.0,2.5,3.1,10,12,5,5,0".data))).toOption.isSome = true ∧
    (⟨"1.0,2.5,3.1,10,12,5,5,0".data, 100, false, false, false⟩ : LineInput).writeOk
      = false ∧
    (acqStep initState
        ⟨"1.0,2.5,3.1,10,12,5,5,0".data, 100, false, false, false⟩).diags = [] ∧
    (acqStep initState
        ⟨"1.0,2.5,3.1,10,12,5,5,0".data, 100, false, false, false⟩).log = [] := by
  decide

/-- C9 amended: a failed log write is silently ignored — it emits no
diagnostic and appends no record — and it does not prevent subsequent
samples from being logged. -/
theorem log_write_failure_silent (st : AcqState) (inp : LineInput) (ys : List LineInput)
    (hok : (parse_engine_data_point (splitComma
        (trimChars inp.line))).toOption.isSome = true)
    (hw : inp.writeOk = false) :
    (acqStep st inp).diags = st.diags ∧
    (acqStep st inp).log = st.log ∧
    (List.foldl acqStep st (inp :: ys)).log = st.log ++ ys.filterMap acq_log_entry := by
  cases hp : parse_engine_data_point (splitComma (trimChars inp.line)) with
  | error e => rw [hp] at hok; simp [Except.toOption] at hok
  | ok dp0 =>
      have hlen : (splitComma (trimChars inp.line)).length = 8 := by
        by_contra hne
        rw [parse_length_ne_eight hne] at hp
        exact Except.noConfusion hp
      refine ⟨by simp [acqStep, hlen, hp], by simp [acqStep, hlen, hp, hw], ?_⟩
      rw [List.foldl_cons, acq_log_foldl, acqStep_log]
      have hent : acq_log_entry inp = none := by
        simp [acq_log_entry, hw]
      rw [hent]
      simp

/-- Witness for `log_write_failure_silent`: a failed write for the first
sample, then a second sample that is still logged. -/
theorem log_write_failure_silent_witness :
    (parse_engine_data_point (splitComma
        (trimChars "2.0,2.6,3.0,11,12,5,5,1".data))).toOption.isSome = true ∧
    (⟨"2.0,2.6,3.0,11,12,5,5,1".data, 200, false, false, false⟩ : LineInput).writeOk
      = false ∧
    ((acqStep initState
        ⟨"2.0,2.6,3.0,11,12,5,5,1".data, 200, false, false, false⟩).diags
      = initState.diags ∧
     (acqStep initState
        ⟨"2.0,2.6,3.0,11,12,5,5,1".data, 200, false, false, false⟩).log
      = initState.log ∧
     (List.foldl acqStep initState
        ((⟨"2.0,2.6,3.0,11,12,5,5,1".data, 200, false, false, false⟩ : LineInput) ::
          [⟨"3.0,2.7,3.2,12,13,5,5,0".data, 201, false, false, true⟩])).log
      = initState.log ++
        [(⟨"3.0,2.7,3.2,12,13,5,5,0".data, 201, false, false, true⟩ : LineInput)].filterMap
          acq_log_entry) :=
  ⟨by decide, by decide,
    log_write_failure_silent initState _ _ (by decide) (by decide)⟩

/-- State of the serial write thread (src/groundcontrol/src/main.rs lines
369-405): `last_sent_state`, the still-undelivered valve commands in the
`valve_state_receiver` mpsc queue (front = oldest), and the
`shared_valve_states` cell the thread updates on each dequeue. -/
structure BroadcastState where
  last_sent_state : Bool × Bool
  pending : List (Bool × Bool)
  sharedValve : Bool × Bool
deriving DecidableEq, Repr

/-- The two-field newline-terminated message of lines 390-394, each flag
rendered as 1/0. -/
def render_msg (s : Bool × Bool) : String :=
  (if s.1 then "1" else "0") ++ "," ++ (if s.2 then "1" else "0") ++ "\n"

/-- One iteration of the broadcast loop (lines 375-403): `try_recv` at
most one queued command (updating `last_sent_state` and the shared cell),
then unconditionally write the rendering of `last_sent_state`. -/
def broadcastTick (st : BroadcastState) : BroadcastState × String :=
  let st1 :=
    match st.pending with
    | [] => st
    | c :: rest => { last_sent_state := c, pending := rest, sharedValve := c }
  (st1, render_msg st1.last_sent_state)

/-- Run of `n` consecutive broadcast ticks, collecting the written messages in
order. -/
def broadcastRun (st : BroadcastState) : Nat → BroadcastState × List String
  | 0 => (st, [])
  | Nat.succ n =>
      let t := broadcastTick st
      let r := broadcastRun t.1 n
      (r.1, t.2 :: r.2)

/-- C7: every broadcast tick writes exactly one newline-terminated
two-field line rendering the current command's flags as 1/0, whether or
not the command changed; with the startup default (closed, closed) and
nothing queued, 5 consecutive ticks all send `0,0`. -/
theorem broadcaster_sends_every_tick :
    (∀ s : Bool × Bool, render_msg s =
      (if s.1 then "1" else "0") ++ "," ++ (if s.2 then "1" else "0") ++ "\n") ∧
    (∀ st : BroadcastState,
      (broadcastTick st).2 = render_msg (broadcastTick st).1.last_sent_state) ∧
    (broadcastRun ⟨(false, false), [], (false, false)⟩ 5).2 =
      ["0,0\n", "0,0\n", "0,0\n", "0,0\n", "0,0\n"] := by
  refine ⟨fun s => rfl, fun st => rfl, by decide⟩

/-- C10: each tick dequeues at most one pending command before writing,
and a backlog of queued commands is transmitted one per tick in the order
the commands were set. -/
theorem broadcaster_one_dequeue_per_tick :
    (∀ st : BroadcastState, (broadcastTick st).1.pending = st.pending.tail) ∧
    (∀ (last shared : Bool × Bool) (cmds : List (Bool × Bool)),
      (broadcastRun ⟨last, cmds, shared⟩ cmds.length).2 = cmds.map render_msg) := by
  constructor
  · intro st
    cases h : st.pending <;> simp [broadcastTick, h]
  · intro last shared cmds
    induction cmds generalizing last shared with
    | nil => rfl
    | cons c cs ih =>
        simp only [List.length_cons, broadcastRun, broadcastTick, List.map_cons]
        rw [ih c c]

/-- C1 counterexample: with two commands set before the next tick, that
tick transmits the first (earlier) command, not the last one — the mpsc
queue is not a last-write-wins cell. -/
theorem relay_not_last_write_wins :
    (broadcastTick
        ⟨(false, false), [(true, false), (false, true)], (false, false)⟩).2
      = render_msg (true, false) ∧
    (broadcastTick
        ⟨(false, false), [(true, false), (false, true)], (false, false)⟩).2
      ≠ render_msg (false, true) := by
  decide

/-- C1 amended: commands set before the next tick are queued, not
coalesced — the next tick dequeues and sends exactly the first (oldest)
queued command, leaving the rest for later ticks, so the K-th of K
commands is first sent on the K-th following tick. -/
theorem relay_queues_commands_fifo (last shared c : Bool × Bool)
    (cs : List (Bool × Bool)) :
    broadcastTick ⟨last, c :: cs, shared⟩ = (⟨c, cs, c⟩, render_msg c) := rfl

theorem parse_error_iff (values : List (List Char)) :
    (parse_engine_data_point values).toOption = none ↔
      (values.length ≠ 8 ∨
       parseF64 (values.getD 0 []) = none ∨
       parseF64 (values.getD 1 []) = none ∨
       parseF64 (values.getD 2 []) = none ∨
       parseI32 (values.getD 3 []) = none ∨
       parseI32 (values.getD 4 []) = none ∨
       parseI32 (values.getD 5 []) = none ∨
       parseI32 (values.getD 6 []) = none ∨
       parseI32 (values.getD 7 []) = none ∨
       (∃ k, parseI32 (values.getD 7 []) = some k ∧ k ≠ 0 ∧ k ≠ 1)) := by
  by_cases hlen : values.length = 8
  · simp only [parse_engine_data_point]
    rw [if_neg (by omega)]
    cases h0 : parseF64 (values.getD 0 []) with
    | none => simp [Except.toOption]
    | some t0 =>
    cases h1 : parseF64 (values.getD 1 []) with
    | none => simp [Except.toOption]
    | some t1 =>
    cases h2 : parseF64 (values.getD 2 []) with
    | none => simp [Except.toOption]
    | some t2 =>
    cases h3 : parseI32 (values.getD 3 []) with
    | none => simp [Except.toOption]
    | some t3 =>
    cases h4 : parseI32 (values.getD 4 []) with
    | none => simp [Except.toOption]
    | some t4 =>
    cases h5 : parseI32 (values.getD 5 []) with
    | none => simp [Except.toOption]
    | some t5 =>
    cases h6 : parseI32 (values.getD 6 []) with
    | none => simp [Except.toOption]
    | some t6 =>
    cases h7 : parseI32 (values.getD 7 []) with
    | none => simp [Except.toOption]
    | some k =>
      by_cases hk : k = 1 ∨ k = 0
      · rcases hk with rfl | rfl <;> simp [Except.toOption, hlen]
      · simp only [Except.toOption, if_neg hk]
        simp [hlen]
        omega
  · simp [parse_length_ne_eight hlen, Except.toOption, hlen]

/-- C3: the line decoder fails exactly when the trimmed line does not
split into 8 comma-separated fields, a numeric field fails to parse in
its expected type (first three `f64`, next four `i32`), or the emergency
field is an integer outside 0 and 1; being a pure function of the line it
is deterministic and effect-free, and the float grammar accepts negative
numbers and scientific notation, shown on a concrete line. -/
theorem line_decoder_error_iff :
    (∀ line : List Char,
      (decode_line line).toOption = none ↔
        ((splitComma (trimChars line)).length ≠ 8 ∨
         parseF64 ((splitComma (trimChars line)).getD 0 []) = none ∨
         parseF64 ((splitComma (trimChars line)).getD 1 []) = none ∨
         parseF64 ((splitComma (trimChars line)).getD 2 []) = none ∨
         parseI32 ((splitComma (trimChars line)).getD 3 []) = none ∨
         parseI32 ((splitComma (trimChars line)).getD 4 []) = none ∨
         parseI32 ((splitComma (trimChars line)).getD 5 []) = none ∨
         parseI32 ((splitComma (trimChars line)).getD 6 []) = none ∨
         parseI32 ((splitComma (trimChars line)).getD 7 []) = none ∨
         (∃ k, parseI32 ((splitComma (trimChars line)).getD 7 []) = some k ∧
            k ≠ 0 ∧ k ≠ 1))) ∧
    decode_line "-1.5e-3,2.5E2,0.5,10,-12,+5,5,1".data =
      .ok ⟨0, .finite (mkRat (-3) 2000), .finite (mkRat 250 1), .finite (mkRat 1 2),
           10, -12, 5, 5, false, false, []⟩ := by
  constructor
  · intro line
    exact parse_error_iff (splitComma (trimChars line))
  · decide

/-- C4 counterexample: two field lists identical except for an eighth
field of `1` versus `0` decode to the very same sample, so no field (nor
any function) of a decoded `EngineDataPoint` can equal the eighth wire
field — the decoded sample carries no emergency flag. -/
theorem emergency_not_recorded_cex :
    (parse_engine_data_point [['1'], ['2'], ['3'], ['1'], ['2'], ['3'], ['4'], ['1']] =
      parse_engine_data_point [['1'], ['2'], ['3'], ['1'], ['2'], ['3'], ['4'], ['0']]) ∧
    ¬ ∃ em : EngineDataPoint → Bool,
        ∀ (values : List (List Char)) (dp : EngineDataPoint),
          parse_engine_data_point values = .ok dp →
            (em dp = true ↔ values.getD 7 [] = ['1']) := by
  constructor
  · decide
  · rintro ⟨em, hem⟩
    have e1 : parse_engine_data_point
        [['1'], ['2'], ['3'], ['1'], ['2'], ['3'], ['4'], ['1']] =
        .ok ⟨0, .finite (mkRat 1 1), .finite (mkRat 2 1), .finite (mkRat 3 1),
             1, 2, 3, 4, false, false, []⟩ := by decide
    have e2 : parse_engine_data_point
        [['1'], ['2'], ['3'], ['1'], ['2'], ['3'], ['4'], ['0']] =
        .ok ⟨0, .finite (mkRat 1 1), .finite (mkRat 2 1), .finite (mkRat 3 1),
             1, 2, 3, 4, false, false, []⟩ := by decide
    have h1 := hem _ _ e1
    have h2 := hem _ _ e2
    have hg1 : ([['1'], ['2'], ['3'], ['1'], ['2'], ['3'], ['4'], ['1']] :
        List (List Char)).getD 7 [] = ['1'] := by decide
    have hg2 : ¬(([['1'], ['2'], ['3'], ['1'], ['2'], ['3'], ['4'], ['0']] :
        List (List Char)).getD 7 [] = ['1']) := by decide
    exact hg2 (h2.mp (h1.mpr hg1))

/-- C4 amended: the decoder validates the eighth field (it must parse as
the integer 0 or 1) but discards its value — the decode result is
identical whichever of the two legal values the eighth field holds. -/
theorem emergency_value_discarded (v0 v1 v2 v3 v4 v5 v6 a b : List Char)
    (ha : parseI32 a = some 0 ∨ parseI32 a = some 1)
    (hb : parseI32 b = some 0 ∨ parseI32 b = some 1) :
    parse_engine_data_point [v0, v1, v2, v3, v4, v5, v6, a] =
      parse_engine_data_point [v0, v1, v2, v3, v4, v5, v6, b] := by
  simp only [parse_engine_data_point, List.length_cons, List.length_nil,
    List.getD_cons_zero, List.getD_cons_succ]
  norm_num
  cases h0 : parseF64 v0 with
  | none => rfl
  | some t0 =>
  cases h1 : parseF64 v1 with
  | none => rfl
  | some t1 =>
  cases h2 : parseF64 v2 with
  | none => rfl
  | some t2 =>
  cases h3 : parseI32 v3 with
  | none => rfl
  | some t3 =>
  cases h4 : parseI32 v4 with
  | none => rfl
  | some t4 =>
  cases h5 : parseI32 v5 with
  | none => rfl
  | some t5 =>
  cases h6 : parseI32 v6 with
  | none => rfl
  | some t6 =>
  rcases ha with ha | ha <;> rcases hb with hb | hb <;> simp [ha, hb]

/-- Witness for `emergency_value_discarded` at the concrete emergency
fields `0` and `1`. -/
theorem emergency_value_discarded_witness :
    (parseI32 ['0'] = some 0 ∨ parseI32 ['0'] = some 1) ∧
    (parseI32 ['1'] = some 0 ∨ parseI32 ['1'] = some 1) ∧
    parse_engine_data_point [['5'], ['2'], ['3'], ['1'], ['2'], ['3'], ['4'], ['0']] =
      parse_engine_data_point [['5'], ['2'], ['3'], ['1'], ['2'], ['3'], ['4'], ['1']] :=
  ⟨by decide, by decide,
    emergency_value_discarded _ _ _ _ _ _ _ _ _ (by decide) (by decide)⟩
